import Mathlib

/-! Verification of the audio encoding and playback-transform core of the
Text-to-speech application (src/index.tsx): the WAV container encoder
`pcmToWavBlob`, the byte-to-sample reinterpretation performed by the
`Int16Array` view in `handleGenerateSpeech`, and the playback transport logic
(`stopPlayback`, `handlePlayStop`, `handleRateChange`, `handlePitchChange`,
and the `onended` natural-completion callback). Byte buffers are modelled as
`List Nat` with every entry below 256; JavaScript numbers holding integral
values are modelled as `Int`/`Nat`, with the `DataView` setters' ECMAScript
conversions (ToUint32/ToUint16) made explicit as reductions modulo the field
width. -/

namespace TTS

/-- Little-endian byte pair of a 16-bit field, as stored by
`DataView.setUint16(offset, v, true)` once the value has been reduced to the
field width. -/
def u16le (n : Nat) : List Nat := [n % 256, n / 256 % 256]

/-- Little-endian byte quadruple of a 32-bit field, as stored by
`DataView.setUint32(offset, v, true)` once the value has been reduced to the
field width. -/
def u32le (n : Nat) : List Nat :=
  [n % 256, n / 256 % 256, n / 65536 % 256, n / 16777216 % 256]

/-- ECMAScript ToUint32 conversion applied by `DataView.setUint32` to its
value argument: the integer modulo 2^32, as a non-negative number. -/
def toUint32 (i : Int) : Nat := (i % 4294967296).toNat

/-- ECMAScript ToUint16 conversion applied by `DataView.setUint16` to its
value argument; `DataView.setInt16` stores exactly the same two bytes (the
value modulo 2^16, little-endian). -/
def toUint16 (i : Int) : Nat := (i % 65536).toNat

/-- The sample-write loop of `pcmToWavBlob` (src/index.tsx lines 306-308):
`view.setInt16(headerSize + i * 2, pcmData[i], true)` for each index `i` in
order, i.e. each sample contributes its two little-endian bytes. -/
def pcmBytes : List Int → List Nat
  | [] => []
  | s :: rest => u16le (toUint16 s) ++ pcmBytes rest

/-- Shallow embedding of `pcmToWavBlob` (src/index.tsx lines 270-311): the
44-byte RIFF/WAVE header written field by field into the `DataView`, followed
by the PCM payload. The `writeString` calls are the ASCII codes of the four
markers; every multi-byte field is little-endian. -/
def pcmToWavBlob (pcmData : List Int) (sampleRate : Int) (numChannels : Int) :
    List Nat :=
  let headerSize := 44
  let bitsPerSample := 16
  let bytesPerSample := bitsPerSample / 8
  let dataSize := pcmData.length * bytesPerSample
  let fileSize := headerSize + dataSize
  [82, 73, 70, 70]                           -- writeString(0, 'RIFF')
    ++ u32le (fileSize - 8)                  -- setUint32(4, fileSize - 8, true)
    ++ [87, 65, 86, 69]                      -- writeString(8, 'WAVE')
    ++ [102, 109, 116, 32]                   -- writeString(12, 'fmt ')
    ++ u32le 16                              -- setUint32(16, 16, true)
    ++ u16le 1                               -- setUint16(20, 1, true)
    ++ u16le (toUint16 numChannels)          -- setUint16(22, numChannels, true)
    ++ u32le (toUint32 sampleRate)           -- setUint32(24, sampleRate, true)
    ++ u32le (toUint32 (sampleRate * numChannels * (bytesPerSample : Int)))
                                             -- setUint32(28, byte rate, true)
    ++ u16le (toUint16 (numChannels * (bytesPerSample : Int)))
                                             -- setUint16(32, block align, true)
    ++ u16le bitsPerSample                   -- setUint16(34, 16, true)
    ++ [100, 97, 116, 97]                    -- writeString(36, 'data')
    ++ u32le dataSize                        -- setUint32(40, dataSize, true)
    ++ pcmBytes pcmData                      -- the sample-write loop

/-- Value of two little-endian bytes. -/
def readLE2 : List Nat → Nat
  | [a, b] => a + 256 * b
  | _ => 0

/-- Value of four little-endian bytes. -/
def readLE4 : List Nat → Nat
  | [a, b, c, d] => a + 256 * b + 65536 * c + 16777216 * d
  | _ => 0

/-- Read one byte of a byte buffer (0 past the end). -/
def readU8 (bs : List Nat) (i : Nat) : Nat := (bs.drop i).headD 0

/-- Decode the unsigned 16-bit little-endian field at offset `i`. -/
def readU16 (bs : List Nat) (i : Nat) : Nat := readLE2 ((bs.drop i).take 2)

/-- Decode the unsigned 32-bit little-endian field at offset `i`. -/
def readU32 (bs : List Nat) (i : Nat) : Nat := readLE4 ((bs.drop i).take 4)

/-- Error taxonomy of the spec (section 7). In the source these surface as
the corresponding platform exceptions caught at the call boundary of
`handleGenerateSpeech`. -/
inductive AudioError
  | InvalidEncodingError
  | MalformedAudioError
  | InvalidFormatError
  | DeviceUnavailableError

/-- One signed 16-bit sample from two bytes, little-endian two's complement. -/
def int16OfBytes (lo hi : Nat) : Int :=
  let u := lo % 256 + 256 * (hi % 256)
  if u < 32768 then (u : Int) else (u : Int) - 65536

/-- Consecutive byte pairs viewed as little-endian signed 16-bit samples. -/
def int16Samples : List Nat → List Int
  | lo :: hi :: rest => int16OfBytes lo hi :: int16Samples rest
  | _ => []

/-- Shallow embedding of the byte-to-sample reinterpretation
`new Int16Array(decodedBytes.buffer)` at src/index.tsx line 102: the
typed-array constructor throws a RangeError when the buffer length is not a
multiple of 2 — the failure the spec's taxonomy calls `MalformedAudioError` —
and otherwise views consecutive byte pairs as (platform, i.e. little-endian)
signed 16-bit integers. -/
def bytesToInt16 (bytes : List Nat) : Except AudioError (List Int) :=
  if bytes.length % 2 = 0 then Except.ok (int16Samples bytes)
  else Except.error AudioError.MalformedAudioError

/-- An `AudioBufferSourceNode` as configured by `handlePlayStop`
(src/index.tsx lines 137-151): its `playbackRate` and `detune` AudioParam
values and whether an `onended` handler is currently attached. -/
structure SourceNode where
  playbackRate : Rat
  detune : Int
  onendedAttached : Bool

/-- The transport-relevant component state of the App component: the React
state cells `isPlaying`, `rate`, `pitch` and whether `audioBuffer` is
non-null, the ref cell `sourceNodeRef.current`, plus two history counters
that make the claims observable: `activeOutputs` counts underlying source
nodes currently emitting audio, and `finished` counts natural-completion
("finished") notifications delivered so far. -/
structure EngineState where
  isPlaying : Bool
  current : Option SourceNode
  hasBuffer : Bool
  rate : Rat
  pitch : Int
  activeOutputs : Nat
  finished : Nat

/-- Embedding of `stopPlayback` (src/index.tsx lines 63-70). When a source
node is held, the handler first nulls the node's `onended` callback, then
calls `node.stop()` — stopping a started node fires its ended event, whose
handler would count as a "finished" notification only if it were still
attached — then clears the ref and the playing flag. With no node held it
does nothing. -/
def stopPlayback (s : EngineState) : EngineState :=
  match s.current with
  | none => s
  | some node =>
    let node' : SourceNode := { node with onendedAttached := false }
    let fin := if node'.onendedAttached then s.finished + 1 else s.finished
    { s with current := none, isPlaying := false,
             activeOutputs := s.activeOutputs - 1, finished := fin }

/-- Embedding of `handlePlayStop` (src/index.tsx lines 125-154): when playing
it stops; otherwise, if a decoded buffer is present, it creates a source node
with `playbackRate.value = rate` and `detune.value = pitch * 100` (cents),
starts it, attaches the `onended` handler and records it as current. -/
def handlePlayStop (s : EngineState) : EngineState :=
  if s.isPlaying then stopPlayback s
  else if s.hasBuffer then
    let source : SourceNode :=
      { playbackRate := s.rate, detune := s.pitch * 100, onendedAttached := true }
    { s with current := some source, isPlaying := true,
             activeOutputs := s.activeOutputs + 1 }
  else s

/-- Embedding of the natural-completion callback installed at src/index.tsx
lines 146-149: when a started node reaches the end of the buffer its ended
event fires; the attached handler — the "finished" notification — clears the
playing flag and the ref. A node whose handler was nulled by `stopPlayback`
ends silently with nothing observable happening. -/
def onEnded (s : EngineState) : EngineState :=
  match s.current with
  | none => s
  | some node =>
    if node.onendedAttached then
      { s with isPlaying := false, current := none,
               activeOutputs := s.activeOutputs - 1, finished := s.finished + 1 }
    else { s with activeOutputs := s.activeOutputs - 1 }

/-- Embedding of `handleRateChange` (src/index.tsx lines 156-159): stop any
active playback, then store the new rate parsed from the slider. -/
def handleRateChange (r : Rat) (s : EngineState) : EngineState :=
  let s' := stopPlayback s
  { s' with rate := r }

/-- Embedding of `handlePitchChange` (src/index.tsx lines 161-164): stop any
active playback, then store the new pitch (semitones) parsed from the
slider. -/
def handlePitchChange (p : Int) (s : EngineState) : EngineState :=
  let s' := stopPlayback s
  { s' with pitch := p }

/-- Transport effect of `handleGenerateSpeech` (src/index.tsx lines 72-123):
it stops playback and clears the buffer; on success a freshly decoded buffer
is installed, on failure none is. -/
def handleGenerate (success : Bool) (s : EngineState) : EngineState :=
  let s' := stopPlayback s
  { s' with hasBuffer := success }

/-- The user- and platform-originated events that drive the transport. -/
inductive Event
  | pressPlayStop
  | ended
  | setRate (r : Rat)
  | setPitch (p : Int)
  | generate (success : Bool)

/-- One step of the transport state machine: dispatch an event to the
corresponding handler of the source. -/
def step (e : Event) (s : EngineState) : EngineState :=
  match e with
  | .pressPlayStop => handlePlayStop s
  | .ended => onEnded s
  | .setRate r => handleRateChange r s
  | .setPitch p => handlePitchChange p s
  | .generate ok => handleGenerate ok s

/-- Initial component state (the `useState`/`useRef` initializers at
src/index.tsx lines 38-45): not playing, no node, no buffer, rate 1.0,
pitch 0. -/
def initState : EngineState :=
  { isPlaying := false, current := none, hasBuffer := false,
    rate := 1, pitch := 0, activeOutputs := 0, finished := 0 }

/-- The state reached from the initial state by a sequence of events. -/
def run (es : List Event) : EngineState :=
  es.foldl (fun s e => step e s) initState

/-- A state is reachable when some event sequence produces it. -/
def Reachable (s : EngineState) : Prop := ∃ es : List Event, run es = s

/-- The transport invariant: the playing flag mirrors whether a node is held,
exactly the held node (if any) is emitting audio, and any held node still has
its `onended` handler attached. -/
def Inv (s : EngineState) : Prop :=
  s.isPlaying = s.current.isSome
    ∧ s.activeOutputs = (if s.current.isSome then 1 else 0)
    ∧ ∀ n, s.current = some n → n.onendedAttached = true

theorem toUint16_lt (i : Int) : toUint16 i < 65536 := by
  unfold toUint16; omega

theorem pcmBytes_length : ∀ pcm : List Int, (pcmBytes pcm).length = 2 * pcm.length
  | [] => rfl
  | s :: rest => by
      simp [pcmBytes, u16le, pcmBytes_length rest]
      omega

theorem pcmToWavBlob_length (pcm : List Int) (sr ch : Int) :
    (pcmToWavBlob pcm sr ch).length = 44 + 2 * pcm.length := by
  simp [pcmToWavBlob, u32le, u16le, pcmBytes_length]
  omega

/-- Cons-level normal form of the encoder output: the 44 header bytes written
by the field writes of src/index.tsx lines 286-303, followed by the payload
of the sample-write loop. -/
theorem pcmToWavBlob_eq (pcm : List Int) (sr ch : Int) :
    pcmToWavBlob pcm sr ch =
      82 :: 73 :: 70 :: 70
        :: (44 + pcm.length * 2 - 8) % 256
        :: (44 + pcm.length * 2 - 8) / 256 % 256
        :: (44 + pcm.length * 2 - 8) / 65536 % 256
        :: (44 + pcm.length * 2 - 8) / 16777216 % 256
        :: 87 :: 65 :: 86 :: 69
        :: 102 :: 109 :: 116 :: 32
        :: 16 :: 0 :: 0 :: 0
        :: 1 :: 0
        :: (ch % 65536).toNat % 256
        :: (ch % 65536).toNat / 256 % 256
        :: (sr % 4294967296).toNat % 256
        :: (sr % 4294967296).toNat / 256 % 256
        :: (sr % 4294967296).toNat / 65536 % 256
        :: (sr % 4294967296).toNat / 16777216 % 256
        :: (sr * ch * 2 % 4294967296).toNat % 256
        :: (sr * ch * 2 % 4294967296).toNat / 256 % 256
        :: (sr * ch * 2 % 4294967296).toNat / 65536 % 256
        :: (sr * ch * 2 % 4294967296).toNat / 16777216 % 256
        :: (ch * 2 % 65536).toNat % 256
        :: (ch * 2 % 65536).toNat / 256 % 256
        :: 16 :: 0
        :: 100 :: 97 :: 116 :: 97
        :: (pcm.length * 2) % 256
        :: (pcm.length * 2) / 256 % 256
        :: (pcm.length * 2) / 65536 % 256
        :: (pcm.length * 2) / 16777216 % 256
        :: pcmBytes pcm := rfl

/-- Reading in the payload region skips the 44 header bytes. -/
theorem readU16_wav_payload (pcm : List Int) (sr ch : Int) (j : Nat) :
    readU16 (pcmToWavBlob pcm sr ch) (j + 44) = readU16 (pcmBytes pcm) j := by
  rw [pcmToWavBlob_eq]; rfl

/-- The two payload bytes of sample `i` encode the sample modulo 2^16,
little-endian. -/
theorem readU16_pcmBytes : ∀ (pcm : List Int) (i : Nat), i < pcm.length →
    readU16 (pcmBytes pcm) (2 * i) = toUint16 (pcm.getD i 0)
  | [], i, h => absurd h (by simp)
  | s :: rest, 0, _ => by
      have hb : toUint16 s < 65536 := toUint16_lt s
      have e : readU16 (pcmBytes (s :: rest)) (2 * 0)
          = toUint16 s % 256 + 256 * (toUint16 s / 256 % 256) := rfl
      have e2 : (s :: rest).getD 0 0 = s := rfl
      rw [e, e2]
      omega
  | s :: rest, i + 1, h => by
      have hi : i < rest.length := by simp [List.length_cons] at h; omega
      have e1 : readU16 (pcmBytes (s :: rest)) (2 * (i + 1))
          = readU16 (pcmBytes rest) (2 * i) := rfl
      have e2 : (s :: rest).getD (i + 1) 0 = rest.getD i 0 := rfl
      rw [e1, e2]
      exact readU16_pcmBytes rest i hi

/-- The sample list produced by reinterpretation has half as many entries as
there are bytes. -/
theorem int16Samples_length : ∀ bs : List Nat,
    (int16Samples bs).length = bs.length / 2
  | [] => rfl
  | [_] => by simp [int16Samples]
  | _ :: _ :: rest => by
      show (int16Samples rest).length + 1 = (rest.length + 1 + 1) / 2
      rw [int16Samples_length rest]
      omega

theorem inv_initState : Inv initState :=
  ⟨rfl, rfl, fun n h => by cases h⟩

theorem inv_stopPlayback (s : EngineState) (h : Inv s) : Inv (stopPlayback s) := by
  obtain ⟨h1, h2, h3⟩ := h
  cases hc : s.current with
  | none =>
      have e : stopPlayback s = s := by simp [stopPlayback, hc]
      rw [e]; exact ⟨h1, h2, h3⟩
  | some node =>
      have e : stopPlayback s =
          { s with current := none, isPlaying := false,
                   activeOutputs := s.activeOutputs - 1, finished := s.finished } := by
        simp [stopPlayback, hc]
      rw [e]
      refine ⟨rfl, ?_, ?_⟩
      · rw [hc] at h2
        simp at h2
        simp [h2]
      · intro n hn; cases hn

theorem inv_handlePlayStop (s : EngineState) (h : Inv s) : Inv (handlePlayStop s) := by
  obtain ⟨h1, h2, h3⟩ := h
  by_cases hp : s.isPlaying
  · have e : handlePlayStop s = stopPlayback s := by simp [handlePlayStop, hp]
    rw [e]; exact inv_stopPlayback s ⟨h1, h2, h3⟩
  · by_cases hb : s.hasBuffer
    · have e : handlePlayStop s = { s with
          current := some { playbackRate := s.rate, detune := s.pitch * 100,
                            onendedAttached := true },
          isPlaying := true, activeOutputs := s.activeOutputs + 1 } := by
        simp [handlePlayStop, hp, hb]
      rw [e]
      have hz : s.current.isSome = false := by
        rw [← h1]; simpa using hp
      rw [hz] at h2
      simp at h2
      refine ⟨rfl, by simp [h2], ?_⟩
      intro n hn
      cases hn
      rfl
    · have e : handlePlayStop s = s := by simp [handlePlayStop, hp, hb]
      rw [e]; exact ⟨h1, h2, h3⟩

theorem inv_onEnded (s : EngineState) (h : Inv s) : Inv (onEnded s) := by
  obtain ⟨h1, h2, h3⟩ := h
  cases hc : s.current with
  | none =>
      have e : onEnded s = s := by simp [onEnded, hc]
      rw [e]; exact ⟨h1, h2, h3⟩
  | some node =>
      have ha : node.onendedAttached = true := h3 node hc
      have e : onEnded s =
          { s with isPlaying := false, current := none,
                   activeOutputs := s.activeOutputs - 1,
                   finished := s.finished + 1 } := by
        simp [onEnded, hc, ha]
      rw [e]
      refine ⟨rfl, ?_, ?_⟩
      · rw [hc] at h2
        simp at h2
        simp [h2]
      · intro n hn; cases hn

theorem inv_step (e : Event) (s : EngineState) (h : Inv s) : Inv (step e s) := by
  cases e with
  | pressPlayStop => exact inv_handlePlayStop s h
  | ended => exact inv_onEnded s h
  | setRate r => exact inv_stopPlayback s h
  | setPitch p => exact inv_stopPlayback s h
  | generate ok => exact inv_stopPlayback s h

theorem inv_run (es : List Event) : Inv (run es) := by
  suffices h : ∀ (l : List Event) (s : EngineState), Inv s →
      Inv (l.foldl (fun t e => step e t) s) by
    exact h es initState inv_initState
  intro l
  induction l with
  | nil => intro s h; exact h
  | cons e rest ih => intro s h; exact ih (step e s) (inv_step e s h)

theorem reachable_inv (s : EngineState) (h : Reachable s) : Inv s := by
  obtain ⟨es, he⟩ := h
  exact he ▸ inv_run es

/-- C1: for every PCM sample buffer of N samples and any sample rate and
channel count representable in their header fields (the header stores the
channel count in a 16-bit field and the sample rate and sizes in 32-bit
fields), the encoder returns exactly 44 + 2N bytes, the declared file-size
field at bytes 4-7 is 36 + 2N, the declared payload-size field at bytes 40-43
is 2N, and the sample rate, channel count and sample count are recovered
exactly from the header. -/
theorem wav_roundtrip_framing (pcm : List Int) (sr ch : Int)
    (hsr0 : 0 ≤ sr) (hsr : sr < 4294967296)
    (hch0 : 0 ≤ ch) (hch : ch < 65536)
    (hN : 36 + 2 * pcm.length < 4294967296) :
    (pcmToWavBlob pcm sr ch).length = 44 + 2 * pcm.length
    ∧ readU32 (pcmToWavBlob pcm sr ch) 4 = 36 + 2 * pcm.length
    ∧ readU32 (pcmToWavBlob pcm sr ch) 40 = 2 * pcm.length
    ∧ (readU32 (pcmToWavBlob pcm sr ch) 24 : Int) = sr
    ∧ (readU16 (pcmToWavBlob pcm sr ch) 22 : Int) = ch
    ∧ readU32 (pcmToWavBlob pcm sr ch) 40 / 2 = pcm.length := by
  have e40 : readU32 (pcmToWavBlob pcm sr ch) 40
      = (pcm.length * 2) % 256
        + 256 * ((pcm.length * 2) / 256 % 256)
        + 65536 * ((pcm.length * 2) / 65536 % 256)
        + 16777216 * ((pcm.length * 2) / 16777216 % 256) := by
    rw [pcmToWavBlob_eq]; rfl
  refine ⟨pcmToWavBlob_length pcm sr ch, ?_, ?_, ?_, ?_, ?_⟩
  · have e : readU32 (pcmToWavBlob pcm sr ch) 4
        = (44 + pcm.length * 2 - 8) % 256
          + 256 * ((44 + pcm.length * 2 - 8) / 256 % 256)
          + 65536 * ((44 + pcm.length * 2 - 8) / 65536 % 256)
          + 16777216 * ((44 + pcm.length * 2 - 8) / 16777216 % 256) := by
      rw [pcmToWavBlob_eq]; rfl
    rw [e]; omega
  · rw [e40]; omega
  · have e : readU32 (pcmToWavBlob pcm sr ch) 24
        = (sr % 4294967296).toNat % 256
          + 256 * ((sr % 4294967296).toNat / 256 % 256)
          + 65536 * ((sr % 4294967296).toNat / 65536 % 256)
          + 16777216 * ((sr % 4294967296).toNat / 16777216 % 256) := by
      rw [pcmToWavBlob_eq]; rfl
    rw [e]; omega
  · have e : readU16 (pcmToWavBlob pcm sr ch) 22
        = (ch % 65536).toNat % 256 + 256 * ((ch % 65536).toNat / 256 % 256) := by
      rw [pcmToWavBlob_eq]; rfl
    rw [e]; omega
  · rw [e40]; omega

/-- Witness for C1 at the buffer [], sample rate 24000, channel count 1. -/
theorem wav_roundtrip_framing_witness :
    (pcmToWavBlob [] 24000 1).length = 44 + 2 * ([] : List Int).length
    ∧ readU32 (pcmToWavBlob [] 24000 1) 4 = 36 + 2 * ([] : List Int).length
    ∧ readU32 (pcmToWavBlob [] 24000 1) 40 = 2 * ([] : List Int).length
    ∧ (readU32 (pcmToWavBlob [] 24000 1) 24 : Int) = 24000
    ∧ (readU16 (pcmToWavBlob [] 24000 1) 22 : Int) = 1
    ∧ readU32 (pcmToWavBlob [] 24000 1) 40 / 2 = ([] : List Int).length :=
  wav_roundtrip_framing [] 24000 1 (by decide) (by decide) (by decide) (by decide)
    (by decide)

/-- C2: the 44-byte header carries the four ASCII markers RIFF, WAVE,
"fmt " and data at bytes 0-3, 8-11, 12-15 and 36-39 (for every input), and
the little-endian fields: format-block length 16 at 16-19, format code 1 at
20-21, channel count at 22-23, sample rate at 24-27, byte rate
sampleRate * channelCount * 2 at 28-31, block alignment channelCount * 2 at
32-33, and bits per sample 16 at 34-35, for all values representable in the
declared 16/32-bit field widths. -/
theorem wav_header_fields (pcm : List Int) (sr ch : Int)
    (hsr0 : 0 ≤ sr) (hsr : sr < 4294967296)
    (hch0 : 0 ≤ ch) (hch : ch < 32768)
    (hbr : sr * ch * 2 < 4294967296) :
    (pcmToWavBlob pcm sr ch).take 4 = [82, 73, 70, 70]
    ∧ ((pcmToWavBlob pcm sr ch).drop 8).take 4 = [87, 65, 86, 69]
    ∧ ((pcmToWavBlob pcm sr ch).drop 12).take 4 = [102, 109, 116, 32]
    ∧ ((pcmToWavBlob pcm sr ch).drop 36).take 4 = [100, 97, 116, 97]
    ∧ readU32 (pcmToWavBlob pcm sr ch) 16 = 16
    ∧ readU16 (pcmToWavBlob pcm sr ch) 20 = 1
    ∧ (readU16 (pcmToWavBlob pcm sr ch) 22 : Int) = ch
    ∧ (readU32 (pcmToWavBlob pcm sr ch) 24 : Int) = sr
    ∧ (readU32 (pcmToWavBlob pcm sr ch) 28 : Int) = sr * ch * 2
    ∧ (readU16 (pcmToWavBlob pcm sr ch) 32 : Int) = ch * 2
    ∧ readU16 (pcmToWavBlob pcm sr ch) 34 = 16 := by
  refine ⟨?_, ?_, ?_, ?_, ?_, ?_, ?_, ?_, ?_, ?_, ?_⟩
  · rw [pcmToWavBlob_eq]; rfl
  · rw [pcmToWavBlob_eq]; rfl
  · rw [pcmToWavBlob_eq]; rfl
  · rw [pcmToWavBlob_eq]; rfl
  · rw [pcmToWavBlob_eq]; rfl
  · rw [pcmToWavBlob_eq]; rfl
  · have e : readU16 (pcmToWavBlob pcm sr ch) 22
        = (ch % 65536).toNat % 256 + 256 * ((ch % 65536).toNat / 256 % 256) := by
      rw [pcmToWavBlob_eq]; rfl
    rw [e]; omega
  · have e : readU32 (pcmToWavBlob pcm sr ch) 24
        = (sr % 4294967296).toNat % 256
          + 256 * ((sr % 4294967296).toNat / 256 % 256)
          + 65536 * ((sr % 4294967296).toNat / 65536 % 256)
          + 16777216 * ((sr % 4294967296).toNat / 16777216 % 256) := by
      rw [pcmToWavBlob_eq]; rfl
    rw [e]; omega
  · have hm0 : 0 ≤ sr * ch * 2 :=
      mul_nonneg (mul_nonneg hsr0 hch0) (by norm_num)
    have e : readU32 (pcmToWavBlob pcm sr ch) 28
        = (sr * ch * 2 % 4294967296).toNat % 256
          + 256 * ((sr * ch * 2 % 4294967296).toNat / 256 % 256)
          + 65536 * ((sr * ch * 2 % 4294967296).toNat / 65536 % 256)
          + 16777216 * ((sr * ch * 2 % 4294967296).toNat / 16777216 % 256) := by
      rw [pcmToWavBlob_eq]; rfl
    rw [e]
    revert hm0 hbr
    generalize sr * ch * 2 = m
    intro hm0 hbr
    omega
  · have e : readU16 (pcmToWavBlob pcm sr ch) 32
        = (ch * 2 % 65536).toNat % 256 + 256 * ((ch * 2 % 65536).toNat / 256 % 256) := by
      rw [pcmToWavBlob_eq]; rfl
    rw [e]; omega
  · rw [pcmToWavBlob_eq]; rfl

/-- Witness for C2 at the buffer [], sample rate 24000, channel count 1. -/
theorem wav_header_fields_witness :
    (pcmToWavBlob [] 24000 1).take 4 = [82, 73, 70, 70]
    ∧ ((pcmToWavBlob [] 24000 1).drop 8).take 4 = [87, 65, 86, 69]
    ∧ ((pcmToWavBlob [] 24000 1).drop 12).take 4 = [102, 109, 116, 32]
    ∧ ((pcmToWavBlob [] 24000 1).drop 36).take 4 = [100, 97, 116, 97]
    ∧ readU32 (pcmToWavBlob [] 24000 1) 16 = 16
    ∧ readU16 (pcmToWavBlob [] 24000 1) 20 = 1
    ∧ (readU16 (pcmToWavBlob [] 24000 1) 22 : Int) = 1
    ∧ (readU32 (pcmToWavBlob [] 24000 1) 24 : Int) = 24000
    ∧ (readU32 (pcmToWavBlob [] 24000 1) 28 : Int) = 24000 * 1 * 2
    ∧ (readU16 (pcmToWavBlob [] 24000 1) 32 : Int) = 1 * 2
    ∧ readU16 (pcmToWavBlob [] 24000 1) 34 = 16 :=
  wav_header_fields [] 24000 1 (by decide) (by decide) (by decide) (by decide)
    (by decide)

/-- C3 counterexample: with sample rate 0 and channel count 0 — both invalid
according to the claim — the encoder does not fail and does not reject the
input: `pcmToWavBlob` has no validation or error path at all, and here it
emits a complete, well-formed 44-byte header (RIFF marker, data marker, WAVE
marker all present). -/
theorem wav_no_validation_cex :
    (pcmToWavBlob [] 0 0).length = 44
    ∧ (pcmToWavBlob [] 0 0).take 4 = [82, 73, 70, 70]
    ∧ ((pcmToWavBlob [] 0 0).drop 8).take 4 = [87, 65, 86, 69]
    ∧ ((pcmToWavBlob [] 0 0).drop 36).take 4 = [100, 97, 116, 97] := by
  refine ⟨?_, ?_, ?_, ?_⟩ <;> decide

/-- C3 amended: the container encoder performs no validation at all — for
zero or negative sample rate or channel count it still emits the complete
44 + 2N byte buffer with all markers in place, writing the out-of-range
values modulo the width of their header fields; sample amplitude values are
never range-checked, each being copied modulo 2^16. -/
theorem wav_accepts_nonpositive_format (pcm : List Int) (sr ch : Int)
    (h : sr ≤ 0 ∨ ch ≤ 0) :
    (pcmToWavBlob pcm sr ch).length = 44 + 2 * pcm.length
    ∧ (pcmToWavBlob pcm sr ch).take 4 = [82, 73, 70, 70]
    ∧ ((pcmToWavBlob pcm sr ch).drop 36).take 4 = [100, 97, 116, 97]
    ∧ readU16 (pcmToWavBlob pcm sr ch) 22 = toUint16 ch
    ∧ readU32 (pcmToWavBlob pcm sr ch) 24 = toUint32 sr := by
  refine ⟨pcmToWavBlob_length pcm sr ch, ?_, ?_, ?_, ?_⟩
  · rw [pcmToWavBlob_eq]; rfl
  · rw [pcmToWavBlob_eq]; rfl
  · have e : readU16 (pcmToWavBlob pcm sr ch) 22
        = (ch % 65536).toNat % 256 + 256 * ((ch % 65536).toNat / 256 % 256) := by
      rw [pcmToWavBlob_eq]; rfl
    rw [e]; unfold toUint16; omega
  · have e : readU32 (pcmToWavBlob pcm sr ch) 24
        = (sr % 4294967296).toNat % 256
          + 256 * ((sr % 4294967296).toNat / 256 % 256)
          + 65536 * ((sr % 4294967296).toNat / 65536 % 256)
          + 16777216 * ((sr % 4294967296).toNat / 16777216 % 256) := by
      rw [pcmToWavBlob_eq]; rfl
    rw [e]; unfold toUint32; omega

/-- Witness for the amended C3 at the one-sample buffer [100] with sample
rate 0 and channel count 0. -/
theorem wav_accepts_nonpositive_format_witness :
    (pcmToWavBlob [100] 0 0).length = 44 + 2 * ([100] : List Int).length
    ∧ (pcmToWavBlob [100] 0 0).take 4 = [82, 73, 70, 70]
    ∧ ((pcmToWavBlob [100] 0 0).drop 36).take 4 = [100, 97, 116, 97]
    ∧ readU16 (pcmToWavBlob [100] 0 0) 22 = toUint16 0
    ∧ readU32 (pcmToWavBlob [100] 0 0) 24 = toUint32 0 :=
  wav_accepts_nonpositive_format [100] 0 0 (Or.inl (by decide))

/-- C4: the encoder writes the PCM samples from byte 44 on, in order, as
little-endian signed 16-bit integers — the two bytes of sample i at offsets
44 + 2i encode the sample modulo 2^16 — and in particular a single-sample
buffer with value -1 yields bytes 0xFF 0xFF at offsets 44-45 and value 256
yields bytes 0x00 0x01. -/
theorem wav_payload_byte_order (pcm : List Int) (sr ch : Int) (i : Nat)
    (hi : i < pcm.length) :
    readU16 (pcmToWavBlob pcm sr ch) (2 * i + 44) = toUint16 (pcm.getD i 0)
    ∧ readU8 (pcmToWavBlob [-1] 24000 1) 44 = 255
    ∧ readU8 (pcmToWavBlob [-1] 24000 1) 45 = 255
    ∧ readU8 (pcmToWavBlob [256] 24000 1) 44 = 0
    ∧ readU8 (pcmToWavBlob [256] 24000 1) 45 = 1 := by
  refine ⟨?_, by decide, by decide, by decide, by decide⟩
  rw [readU16_wav_payload pcm sr ch (2 * i)]
  exact readU16_pcmBytes pcm i hi

/-- Witness for C4 at the one-sample buffer [7], index 0. -/
theorem wav_payload_byte_order_witness :
    readU16 (pcmToWavBlob [7] 24000 1) (2 * 0 + 44) = toUint16 (([7] : List Int).getD 0 0)
    ∧ readU8 (pcmToWavBlob [-1] 24000 1) 44 = 255
    ∧ readU8 (pcmToWavBlob [-1] 24000 1) 45 = 255
    ∧ readU8 (pcmToWavBlob [256] 24000 1) 44 = 0
    ∧ readU8 (pcmToWavBlob [256] 24000 1) 45 = 1 :=
  wav_payload_byte_order [7] 24000 1 0 (by decide)

/-- C5: reinterpreting a byte buffer as 16-bit samples fails with
MalformedAudioError for every odd-length buffer (in particular length 3), and
succeeds on every even-length buffer of 2k bytes with exactly k samples
(length 4 yields exactly 2 samples). -/
theorem bytes_reinterpret (bytes : List Nat) :
    (bytes.length % 2 = 1 →
        bytesToInt16 bytes = Except.error AudioError.MalformedAudioError)
    ∧ (bytes.length % 2 = 0 →
        ∃ samples, bytesToInt16 bytes = Except.ok samples
          ∧ samples.length = bytes.length / 2)
    ∧ bytesToInt16 [0, 1, 2] = Except.error AudioError.MalformedAudioError
    ∧ (∃ two, bytesToInt16 [0, 1, 2, 3] = Except.ok two ∧ two.length = 2) := by
  refine ⟨?_, ?_, ?_, ?_⟩
  · intro h
    unfold bytesToInt16
    rw [if_neg (by omega)]
  · intro h
    exact ⟨int16Samples bytes, by unfold bytesToInt16; rw [if_pos h],
      int16Samples_length bytes⟩
  · rfl
  · exact ⟨int16Samples [0, 1, 2, 3], rfl, rfl⟩

/-- Witness for C5 at the odd-length buffer [0, 1, 2] and the even-length
buffer [0, 1, 2, 3]. -/
theorem bytes_reinterpret_witness :
    bytesToInt16 [0, 1, 2] = Except.error AudioError.MalformedAudioError
    ∧ ∃ samples, bytesToInt16 [0, 1, 2, 3] = Except.ok samples
        ∧ samples.length = [0, 1, 2, 3].length / 2 :=
  ⟨(bytes_reinterpret [0, 1, 2]).1 (by decide),
    (bytes_reinterpret [0, 1, 2, 3]).2.1 (by decide)⟩

/-- C9 counterexample: an empty sample buffer does not fail anywhere in the
core — the byte-to-sample reinterpretation of the empty byte buffer succeeds
with zero samples rather than raising MalformedAudioError, and the encoder
happily turns the empty sample buffer into a complete 44-byte file with
declared payload size 0. -/
theorem empty_buffer_accepted_cex :
    bytesToInt16 [] = Except.ok []
    ∧ (pcmToWavBlob [] 24000 1).length = 44
    ∧ readU32 (pcmToWavBlob [] 24000 1) 40 = 0 := by
  refine ⟨rfl, ?_, ?_⟩ <;> decide

/-- C9 amended: an empty sample buffer is never rejected by the core: the
byte-to-sample reinterpretation of an empty buffer yields zero samples (its
length 0 is even), and for every sample rate and channel count the encoder
emits a complete 44-byte file with declared payload size 0 and the RIFF
marker in place; no MalformedAudioError is raised for emptiness — only
odd-length buffers trigger it — and any failure for empty audio arises in
the external platform decode step, outside this core. -/
theorem empty_buffer_encodes (sr ch : Int) :
    bytesToInt16 [] = Except.ok []
    ∧ (pcmToWavBlob [] sr ch).length = 44
    ∧ readU32 (pcmToWavBlob [] sr ch) 40 = 0
    ∧ (pcmToWavBlob [] sr ch).take 4 = [82, 73, 70, 70] := by
  refine ⟨rfl, ?_, ?_, ?_⟩
  · simpa using pcmToWavBlob_length [] sr ch
  · rw [pcmToWavBlob_eq]; rfl
  · rw [pcmToWavBlob_eq]; rfl

/-- C6: from any reachable state with an active session — playing flag set —
natural completion moves the engine to the stopped (idle) state and delivers
the "finished" notification exactly once (a second end event adds nothing);
the explicit-stop outcome never delivers it (neither the stop itself nor an
end event arriving after the stop), so the two outcomes are mutually
exclusive for the session; and in every reachable state at most one source
node is emitting audio. -/
theorem playback_completion (s : EngineState) (hs : Reachable s)
    (hp : s.isPlaying = true) :
    (onEnded s).isPlaying = false
    ∧ (onEnded s).finished = s.finished + 1
    ∧ (onEnded (onEnded s)).finished = s.finished + 1
    ∧ (stopPlayback s).finished = s.finished
    ∧ (onEnded (stopPlayback s)).finished = s.finished
    ∧ (∀ t, Reachable t → t.activeOutputs ≤ 1) := by
  obtain ⟨h1, h2, h3⟩ := reachable_inv s hs
  have hsome : s.current.isSome = true := by rw [← h1]; exact hp
  obtain ⟨node, hc⟩ := Option.isSome_iff_exists.mp hsome
  have ha : node.onendedAttached = true := h3 node hc
  have eE : onEnded s =
      { s with isPlaying := false, current := none,
               activeOutputs := s.activeOutputs - 1,
               finished := s.finished + 1 } := by
    simp [onEnded, hc, ha]
  have eS : stopPlayback s =
      { s with current := none, isPlaying := false,
               activeOutputs := s.activeOutputs - 1,
               finished := s.finished } := by
    simp [stopPlayback, hc]
  refine ⟨?_, ?_, ?_, ?_, ?_, ?_⟩
  · rw [eE]
  · rw [eE]
  · rw [eE]; simp [onEnded]
  · rw [eS]
  · rw [eS]; simp [onEnded]
  · intro t ht
    obtain ⟨g1, g2, g3⟩ := reachable_inv t ht
    rw [g2]
    cases t.current <;> simp

/-- Witness for C6 at the state reached by loading a buffer and pressing
play. -/
theorem playback_completion_witness :
    (onEnded (run [Event.generate true, Event.pressPlayStop])).finished
      = (run [Event.generate true, Event.pressPlayStop]).finished + 1 :=
  (playback_completion (run [Event.generate true, Event.pressPlayStop])
    ⟨[Event.generate true, Event.pressPlayStop], rfl⟩ rfl).2.1

/-- C7: stop is idempotent — stopping twice in a row equals stopping once,
and stopping with no active session (no held node) changes nothing — and a
stop never delivers the "finished" notification (the count is unchanged). -/
theorem stop_idempotent (s : EngineState) :
    stopPlayback (stopPlayback s) = stopPlayback s
    ∧ (s.current = none → stopPlayback s = s)
    ∧ (stopPlayback s).finished = s.finished := by
  cases hc : s.current with
  | none =>
      have e : stopPlayback s = s := by simp [stopPlayback, hc]
      exact ⟨by rw [e, e], fun _ => e, by rw [e]⟩
  | some node =>
      have e : stopPlayback s =
          { s with current := none, isPlaying := false,
                   activeOutputs := s.activeOutputs - 1,
                   finished := s.finished } := by
        simp [stopPlayback, hc]
      refine ⟨?_, ?_, ?_⟩
      · rw [e]; rfl
      · intro h
        exact Option.noConfusion h
      · rw [e]

/-- Witness for C7 at the initial state, which has no active session. -/
theorem stop_idempotent_witness : stopPlayback initState = initState :=
  (stop_idempotent initState).2.1 rfl

/-- C8: when play starts (idle state, buffer present), the node receives
detune = pitch * 100 cents, set independently of the rate control, and the
rate multiplier is passed through unchanged as the playback rate. -/
theorem play_params (s : EngineState) (hp : s.isPlaying = false)
    (hb : s.hasBuffer = true) :
    ∃ node : SourceNode,
      (handlePlayStop s).current = some node
      ∧ node.detune = s.pitch * 100
      ∧ node.playbackRate = s.rate := by
  refine ⟨{ playbackRate := s.rate, detune := s.pitch * 100,
            onendedAttached := true }, ?_, rfl, rfl⟩
  simp [handlePlayStop, hp, hb]

/-- Witness for C8 at the state reached by loading a buffer. -/
theorem play_params_witness :
    ∃ node : SourceNode,
      (handlePlayStop (run [Event.generate true])).current = some node
      ∧ node.detune = (run [Event.generate true]).pitch * 100
      ∧ node.playbackRate = (run [Event.generate true]).rate :=
  play_params (run [Event.generate true]) rfl rfl

/-- C10: every rate change and every pitch change first terminates any active
session — afterwards nothing is playing, no node is held, and no "finished"
notification was delivered — then stores the new parameter value, which takes
effect only at the next play: the node created by the next play receives
exactly the new rate, respectively the new pitch times 100 cents. -/
theorem param_change_stops (s : EngineState) (hs : Reachable s) (r : Rat) (p : Int) :
    ((handleRateChange r s).isPlaying = false
      ∧ (handleRateChange r s).current = none
      ∧ (handleRateChange r s).finished = s.finished
      ∧ (handleRateChange r s).rate = r)
    ∧ ((handlePitchChange p s).isPlaying = false
      ∧ (handlePitchChange p s).current = none
      ∧ (handlePitchChange p s).finished = s.finished
      ∧ (handlePitchChange p s).pitch = p)
    ∧ ((handleRateChange r s).hasBuffer = true →
        ∃ node, (handlePlayStop (handleRateChange r s)).current = some node
          ∧ node.playbackRate = r)
    ∧ ((handlePitchChange p s).hasBuffer = true →
        ∃ node, (handlePlayStop (handlePitchChange p s)).current = some node
          ∧ node.detune = p * 100) := by
  obtain ⟨h1, h2, h3⟩ := reachable_inv s hs
  have hstop : (stopPlayback s).isPlaying = false
      ∧ (stopPlayback s).current = none
      ∧ (stopPlayback s).finished = s.finished := by
    cases hc : s.current with
    | none =>
        have e : stopPlayback s = s := by simp [stopPlayback, hc]
        rw [e]
        have hpl : s.isPlaying = false := by rw [h1, hc]; rfl
        exact ⟨hpl, hc, rfl⟩
    | some node =>
        have e : stopPlayback s =
            { s with current := none, isPlaying := false,
                     activeOutputs := s.activeOutputs - 1,
                     finished := s.finished } := by
          simp [stopPlayback, hc]
        rw [e]
        exact ⟨rfl, rfl, rfl⟩
  refine ⟨⟨hstop.1, hstop.2.1, hstop.2.2, rfl⟩,
          ⟨hstop.1, hstop.2.1, hstop.2.2, rfl⟩, ?_, ?_⟩
  · intro hbuf
    have hrp : (handleRateChange r s).isPlaying = false := hstop.1
    refine ⟨{ playbackRate := (handleRateChange r s).rate,
              detune := (handleRateChange r s).pitch * 100,
              onendedAttached := true }, ?_, rfl⟩
    simp [handlePlayStop, hrp, hbuf]
  · intro hbuf
    have hpp : (handlePitchChange p s).isPlaying = false := hstop.1
    refine ⟨{ playbackRate := (handlePitchChange p s).rate,
              detune := (handlePitchChange p s).pitch * 100,
              onendedAttached := true }, ?_, rfl⟩
    simp [handlePlayStop, hpp, hbuf]

/-- Witness for C10 at the state reached by loading a buffer, rate 2 and
pitch 5. -/
theorem param_change_stops_witness :
    ∃ node, (handlePlayStop (handlePitchChange 5 (run [Event.generate true]))).current
        = some node
      ∧ node.detune = 5 * 100 :=
  (param_change_stops (run [Event.generate true]) ⟨[Event.generate true], rfl⟩ 2 5).2.2.2
    rfl

end TTS
